import Mathlib

/-!
Verification of the CSV-to-Todoist task importer (`todoist_add.py`).

The Python source is shallowly embedded below.  Strings are modelled as
Lean `String`s; the string manipulations the script performs
(`str.strip`, `str.split`, `str.upper`, `str.lstrip`, regex matching of
the fixed patterns used) are modelled as executable functions over
`List Char`, each one translated from the corresponding Python
behaviour.  Fallible code paths (exceptions) are modelled with
`Except String`.
-/

namespace TodoistAdd

/-- Python whitespace test used by `str.split()` / `str.strip()`. -/
def wsChar (c : Char) : Bool := c.isWhitespace

/-- Model of Python `str.strip()` on the character list: drop leading and
trailing whitespace. -/
def stripChars (l : List Char) : List Char :=
  ((l.dropWhile wsChar).reverse.dropWhile wsChar).reverse

/-- Model of Python `str.strip()` at `String` level. -/
def pyStrip (s : String) : String := ⟨stripChars s.data⟩

/-- Split a character list at every character satisfying `p`, keeping the
(possibly empty) chunks between separators.  `chunksP p l` always returns a
nonempty list of chunks; e.g. `chunksP (· == '-') "a--b"` is
`["a", "", "b"]`.  This models splitting on a single separator character
(as Python `str.split(sep)` / regex field decomposition do). -/
def chunksP (p : Char → Bool) : List Char → List (List Char)
  | [] => [[]]
  | c :: rest =>
    let r := chunksP p rest
    if p c then [] :: r else (c :: r.headI) :: r.tail

/-- Model of Python `str.split()` (no argument): split on runs of
whitespace, discarding empty chunks. -/
def pySplitChars (l : List Char) : List (List Char) :=
  (chunksP wsChar l).filter (· ≠ [])

/- ---------------------------------------------------------------------
`to_priority` (todoist_add.py lines 99-106):

    def to_priority(val) -> int:
        if val is None:
            return 4
        s = str(val).strip().upper().lstrip("P")
        if s not in {"1","2","3","4"}:
            return 4
        return {1:4, 2:3, 3:2, 4:1}[int(s)]

The CSV reader hands this either `None` (missing column) or an
already-string cell value, so the input is modelled as `Option String`
(`str(val)` is the identity on strings).
--------------------------------------------------------------------- -/

/-- The canonicalisation `str(val).strip().upper().lstrip("P")` applied to a
string input of `to_priority`.  `.upper()` is `Char.toUpper` character-wise
(the relevant alphabet is ASCII), and `.lstrip("P")` drops all leading `'P'`
characters. -/
def prio_canon (v : String) : List Char :=
  ((stripChars v.data).map Char.toUpper).dropWhile (· == 'P')

/-- Embedding of `to_priority`. -/
def to_priority (val : Option String) : Nat :=
  match val with
  | none => 4
  | some v =>
    let s := prio_canon v
    if s = ['1'] then 4
    else if s = ['2'] then 3
    else if s = ['3'] then 2
    else if s = ['4'] then 1
    else 4

/- ---------------------------------------------------------------------
`parse_content` (todoist_add.py lines 118-148):

    SECTION_PAT = re.compile(r"^/(week[_ ]?\d+)$", re.IGNORECASE)

    def parse_content(content: str):
        if not content or not content.strip():
            return "", [], None
        tokens = content.strip().split()
        labels, title_parts = [], []
        section_name = None
        for t in tokens:
            if t.startswith("@") and len(t) > 1:
                labels.append(t[1:])
                continue
            if t.startswith("/"):
                m = SECTION_PAT.match(t.lower())
                if m:
                    normalized = m.group(1)
                    normalized = normalized.replace("_", "").replace(" ", "")
                    section_name = "Week" + normalized[len("week"):]
                    continue
            title_parts.append(t)
        title = " ".join(title_parts).strip()
        return title, labels, section_name
--------------------------------------------------------------------- -/

/-- Model of `SECTION_PAT.match(t.lower())` followed by the normalisation on
lines 141-143: on a match, the section name is `"Week"` followed by the
digits of the token.  The regex `^/(week[_ ]?\d+)$` is decoded directly:
a leading `/`, the letters `week` (after lowercasing), an optional single
`_` or space separator, then one or more digits up to the end.  (Regex
backtracking over the optional separator never helps here, because `_` and
space are not digits; tokens produced by `str.split()` contain no
whitespace, so `$` matching before a trailing newline cannot arise.)
Returns `none` when the token does not match. -/
def weekSecName (t : List Char) : Option (List Char) :=
  match t.map Char.toLower with
  | '/' :: 'w' :: 'e' :: 'e' :: 'k' :: tail =>
    let digs := match tail with
      | '_' :: ds => ds
      | ' ' :: ds => ds
      | ds => ds
    if digs ≠ [] ∧ digs.all Char.isDigit then
      some ('W' :: 'e' :: 'e' :: 'k' :: digs)
    else none
  | _ => none

/-- One iteration of the token loop of `parse_content`.  The accumulator is
`(labels, title_parts, section_name)`. -/
def pcStep (acc : List (List Char) × List (List Char) × Option (List Char))
    (t : List Char) :
    List (List Char) × List (List Char) × Option (List Char) :=
  let (labels, title_parts, sec) := acc
  if t.head? = some '@' ∧ t.length > 1 then
    (labels ++ [t.drop 1], title_parts, sec)
  else if t.head? = some '/' then
    match weekSecName t with
    | some nm => (labels, title_parts, some nm)
    | none => (labels, title_parts ++ [t], sec)
  else (labels, title_parts ++ [t], sec)

/-- Model of `" ".join(parts)`. -/
def joinSpace : List (List Char) → List Char
  | [] => []
  | [x] => x
  | x :: y :: xs => x ++ ' ' :: joinSpace (y :: xs)

/-- Embedding of `parse_content`.  Returns `(title, labels, section_name)`. -/
def parse_content (content : String) : String × List String × Option String :=
  if stripChars content.data = [] then ("", [], none)
  else
    let toks := pySplitChars (stripChars content.data)
    let res := toks.foldl pcStep ([], [], none)
    (⟨stripChars (joinSpace res.2.1)⟩, res.1.map (fun l => ⟨l⟩),
      res.2.2.map (fun l => ⟨l⟩))

/-- A token that line 135 turns into a label: starts with `@`, length > 1. -/
def isLabelTok (t : List Char) : Bool :=
  decide (t.head? = some '@' ∧ t.length > 1)

/-- The label contributed by a token, if any (`t[1:]` of an `@` token). -/
def labelOf (t : List Char) : Option (List Char) :=
  if t.head? = some '@' ∧ t.length > 1 then some (t.drop 1) else none

/-- The section name contributed by a token, if any: line 138's `/` test
followed by the pattern match. -/
def secOf (t : List Char) : Option (List Char) :=
  if t.head? = some '/' then weekSecName t else none

/-- A token that matches the section pattern (and is hence consumed). -/
def isSectionTok (t : List Char) : Bool :=
  decide (t.head? = some '/') && (weekSecName t).isSome

/-- A token that ends up in the title: neither a label nor a section match. -/
def isTitleTok (t : List Char) : Bool :=
  !isLabelTok t && !(isSectionTok t)

/-- Last element of a list, if any (self-contained helper). -/
def lastO : List α → Option α
  | [] => none
  | [a] => some a
  | _ :: b :: l => lastO (b :: l)

/-- First-defined choice of two optional values (self-contained helper). -/
def orO (a b : Option α) : Option α :=
  match a with
  | some x => some x
  | none => b

/- ---------------------------------------------------------------------
Due-timestamp construction (todoist_add.py lines 109-115 and 166-172):

    LOCAL_TZ = "Australia/Sydney"

    def to_iso(date_s: str | None, time_s: str | None) -> str | None:
        date_s = (date_s or "").strip()
        time_s = (time_s or "").strip()
        if not date_s or not time_s:
            return None
        dt = datetime.datetime.strptime(f"{date_s} {time_s}", "%Y-%m-%d %H:%M")
        return dt.replace(tzinfo=ZoneInfo(LOCAL_TZ)).isoformat()

    # in create_task:
        iso = to_iso(date_s, time_s)
        if date_s and not time_s:
            payload["due_date"] = date_s.strip()
        elif iso:
            payload["due_datetime"] = iso
            payload["due_lang"] = "en"

`strptime` raising `ValueError` is modelled with `Except String`;
the tz-aware datetime produced by `dt.replace(tzinfo=...)` is modelled as
its wall-clock fields plus the attached zone name (the serialisation
performed by `isoformat()`, whose UTC offset depends on the tz database,
is thin output formatting and is not modelled).
--------------------------------------------------------------------- -/

def LOCAL_TZ : String := "Australia/Sydney"

/-- Numeric value of a digit string (most significant first). -/
def natOfDigits (l : List Char) : Nat :=
  l.foldl (fun a c => a * 10 + (c.toNat - '0'.toNat)) 0

/-- Gregorian leap-year test, as `datetime` uses. -/
def isLeap (y : Nat) : Bool :=
  y % 4 = 0 && (y % 100 != 0 || y % 400 = 0)

/-- Days in a month, as `datetime` validates the day field. -/
def daysInMonth (y m : Nat) : Nat :=
  if m = 2 then (if isLeap y then 29 else 28)
  else if m = 4 ∨ m = 6 ∨ m = 9 ∨ m = 11 then 30
  else 31

/-- A field of between `mn` and `mx` digits; returns its numeric value. -/
def digitsVal (mn mx : Nat) (l : List Char) : Option Nat :=
  if mn ≤ l.length ∧ l.length ≤ mx ∧ l.all Char.isDigit then
    some (natOfDigits l)
  else none

/-- Model of `strptime(s, "%Y-%m-%d")` combined with the range validation
`datetime.datetime` performs: `%Y` is exactly four digits, `%m` and `%d`
are one or two digits, the month is 1..12, the day is 1..days-in-month and
the year is at least `datetime.MINYEAR = 1`.  (CPython compiles `%m` to
`1[0-2]|0[1-9]|[1-9]` and `%d` to `3[01]|[12]\d|0[1-9]|[1-9]`, i.e. one-
or two-digit numeric fields in range; the constructor then checks the day
against the month length.) -/
def parseDate (l : List Char) : Option (Nat × Nat × Nat) :=
  match chunksP (· == '-') l with
  | [ys, ms, ds] =>
    match digitsVal 4 4 ys, digitsVal 1 2 ms, digitsVal 1 2 ds with
    | some y, some m, some d =>
      if 1 ≤ y ∧ 1 ≤ m ∧ m ≤ 12 ∧ 1 ≤ d ∧ d ≤ daysInMonth y m then
        some (y, m, d)
      else none
    | _, _, _ => none
  | _ => none

/-- Model of `strptime(s, "%H:%M")` field decoding: hour and minute are one
or two digits, hour 0..23, minute 0..59. -/
def parseTime (l : List Char) : Option (Nat × Nat) :=
  match chunksP (· == ':') l with
  | [hs, ms] =>
    match digitsVal 1 2 hs, digitsVal 1 2 ms with
    | some h, some mi => if h ≤ 23 ∧ mi ≤ 59 then some (h, mi) else none
    | _, _ => none
  | _ => none

/-- Model of `strptime(s, "%Y-%m-%d %H:%M")` on the string
`f"{date_s} {time_s}"` built in `to_iso`: literal whitespace in a strptime
format matches a run of whitespace (`\s+`), and neither field pattern can
contain whitespace, so a full match decomposes the string into exactly two
whitespace-free chunks.  (Faithful for the strings `to_iso` builds, whose
first and last characters are non-whitespace because both parts are
stripped and nonempty.) -/
def parseDT (l : List Char) : Option (Nat × Nat × Nat × Nat × Nat) :=
  match pySplitChars l with
  | [dp, tp] =>
    match parseDate dp, parseTime tp with
    | some (y, m, d), some (h, mi) => some (y, m, d, h, mi)
    | _, _ => none
  | _ => none

/-- The timezone-aware datetime `dt.replace(tzinfo=ZoneInfo(LOCAL_TZ))`:
its wall-clock fields and the attached zone. -/
structure DueDT where
  year : Nat
  month : Nat
  day : Nat
  hour : Nat
  minute : Nat
  tz : String
deriving DecidableEq

/-- Embedding of `to_iso`: `None` when either part is absent/blank, an
error when `strptime` raises, otherwise the tz-aware datetime. -/
def to_iso (date_s time_s : String) : Except String (Option DueDT) :=
  let d := stripChars date_s.data
  let t := stripChars time_s.data
  if d = [] ∨ t = [] then .ok none
  else
    match parseDT (d ++ ' ' :: t) with
    | some (y, m, dd, h, mi) => .ok (some ⟨y, m, dd, h, mi, LOCAL_TZ⟩)
    | none => .error "ValueError: time data does not match format"

/- ---------------------------------------------------------------------
CSV discovery (todoist_add.py lines 42-83):

    def _candidate_csvs(paths):
        files = []
        for p in paths:
            files += glob.glob(str(p / "*.csv"))
            files += glob.glob(str(p / "*.CSV"))
        return list(dict.fromkeys(files))        # order-preserving dedupe

    def _file_created(path):
        st = os.stat(path)
        return getattr(st, "st_birthtime", None) or st.st_mtime

    def latest_downloaded_csv(explicit=None):
        if explicit:
            if p.is_file(): return str(p)
            if p.is_dir():
                cands = _candidate_csvs([p])
                if not cands: raise FileNotFoundError(...)
                cands.sort(key=_file_created, reverse=True)
                return cands[0]
            raise FileNotFoundError(...)
        csvs = _candidate_csvs([three fixed Downloads dirs])
        if not csvs: raise FileNotFoundError(...)
        csvs.sort(key=_file_created, reverse=True)
        return csvs[0]

A directory is modelled as its scandir listing: a list of files, each a
path string plus its creation timestamp (`st_birthtime`, falling back to
`st_mtime` — a single number here).  `glob` on a POSIX filesystem matches
the pattern's extension case-sensitively, so exactly the two globbed
spellings `.csv` and `.CSV` match (`glob`'s exclusion of dot-files is not
modelled; no claim depends on it).  Python's stable descending sort
followed by `[0]` returns the first file attaining the maximal creation
time, which is modelled directly by a fold.
--------------------------------------------------------------------- -/

structure FSFile where
  name : String
  created : Nat
deriving DecidableEq

/-- `glob.glob(str(p / "*.csv"))`: files whose name ends in `.csv`
(case-sensitively), in listing order. -/
def globCsvLower (files : List FSFile) : List FSFile :=
  files.filter (fun f => List.isSuffixOf ['.', 'c', 's', 'v'] f.name.data)

/-- `glob.glob(str(p / "*.CSV"))`. -/
def globCsvUpper (files : List FSFile) : List FSFile :=
  files.filter (fun f => List.isSuffixOf ['.', 'C', 'S', 'V'] f.name.data)

/-- `list(dict.fromkeys(files))`: order-preserving dedupe on path names. -/
def dedupeFirst (seen : List String) : List FSFile → List FSFile
  | [] => []
  | f :: rest =>
    if seen.contains f.name then dedupeFirst seen rest
    else f :: dedupeFirst (f.name :: seen) rest

/-- Embedding of `_candidate_csvs`. -/
def candidate_csvs (dirs : List (List FSFile)) : List FSFile :=
  dedupeFirst []
    (dirs.foldl (fun acc d => acc ++ globCsvLower d ++ globCsvUpper d) [])

/-- One step of the maximum search: keep the earlier file unless a strictly
newer one appears.  This is the first element of Python's stable
`sort(key=_file_created, reverse=True)`. -/
def pickStep (acc : Option FSFile) (f : FSFile) : Option FSFile :=
  match acc with
  | none => some f
  | some b => if b.created < f.created then some f else some b

/-- `cands.sort(key=_file_created, reverse=True)` followed by `cands[0]`,
as an `Option` for the empty case. -/
def pickLatest (cands : List FSFile) : Option FSFile :=
  cands.foldl pickStep none

/-- Selection of the newest CSV pooled from a list of directories, raising
`FileNotFoundError` when no candidate exists. -/
def latest_csv_from_dirs (dirs : List (List FSFile)) : Except String FSFile :=
  match pickLatest (candidate_csvs dirs) with
  | some f => .ok f
  | none => .error "FileNotFoundError: No CSV files found"

/-- The three shapes an explicit `--csv` argument can resolve to. -/
inductive FSPath where
  | file (name : String)
  | dir (files : List FSFile)
  | absent (name : String)

/-- Embedding of `latest_downloaded_csv`: explicit file → that file;
explicit directory → newest CSV within it; explicit but missing → error;
no explicit path → newest CSV pooled over the fixed Downloads
directories. -/
def latest_downloaded_csv :
    Option FSPath → List (List FSFile) → Except String String
  | some (.file n), _ => .ok n
  | some (.dir files), _ =>
    Except.map (fun f => f.name) (latest_csv_from_dirs [files])
  | some (.absent n), _ =>
    .error ("FileNotFoundError: --csv path not found: " ++ n)
  | none, downloads =>
    Except.map (fun f => f.name) (latest_csv_from_dirs downloads)

/- ---------------------------------------------------------------------
The row loop of `main` (todoist_add.py lines 214-228) with `create_task`'s
empty-title skip (lines 153-156):

    count = 0
    for r in read_rows(csv_path):
        content = r.get("CONTENT", "")
        title, labels, section_name = parse_content(content)
        ...
        create_task(...)        # returns None without POSTing if not title
        count += 1
    print(f"Done. Created {count} task(s).")

The loop is modelled on the success path (no HTTP or section-lookup
exception): the first component counts loop iterations (the reported
`count`), the second counts the task-creation requests actually issued,
i.e. the rows whose parsed title is nonempty.
--------------------------------------------------------------------- -/

structure Row where
  content : String
  due_date : String
  due_time : String
  priority : Option String
  description : String
deriving DecidableEq

/-- One loop iteration: `count` always increments; a POST happens only when
the parsed title is nonempty. -/
def rowStep (acc : Nat × Nat) (r : Row) : Nat × Nat :=
  if (parse_content r.content).1 = "" then (acc.1 + 1, acc.2)
  else (acc.1 + 1, acc.2 + 1)

/-- The whole row loop: returns (reported count, requests issued). -/
def processRows (rows : List Row) : Nat × Nat :=
  rows.foldl rowStep (0, 0)

/-- The due value carried by the task payload: `due_date` (all-day) or
`due_datetime` (+ `due_lang = "en"`). -/
inductive Due where
  | date (s : String)
  | datetime (d : DueDT)
deriving DecidableEq

/-- Embedding of the due handling of `create_task` (lines 166-172): compute
`to_iso` first (its exception propagates), then the all-day branch when the
date string is truthy and the time string is falsy, else the timed branch
when `to_iso` produced a value, else no due value. -/
def buildDue (date_s time_s : String) : Except String (Option Due) :=
  match to_iso date_s time_s with
  | .error e => .error e
  | .ok iso =>
    if date_s ≠ "" ∧ time_s = "" then .ok (some (.date ⟨stripChars date_s.data⟩))
    else
      match iso with
      | some d => .ok (some (.datetime d))
      | none => .ok none

end TodoistAdd

namespace TodoistAdd

/-- Claim C2 counterexample: the claim says every unrecognized priority input
(e.g. `"P9"`, or `None`) maps to the numeric value 1; in the code both map
to 4, the highest-priority numeric. -/
theorem claim_C2_counterexample :
    to_priority (some "P9") = 4 ∧ to_priority none = 4 ∧
      to_priority (some "P9") ≠ 1 := by
  refine ⟨by decide, by decide, by decide⟩

/-- Claim C2 (amended): every priority input that is not recognized as
P1..P4 or 1..4 (after stripping, uppercasing, and removing leading `P`s),
including a missing/None value, maps to the numeric value 4 — the
highest external priority ("P1") — not 1. -/
theorem claim_C2_amended :
    to_priority none = 4 ∧
      ∀ v : String, prio_canon v ∉ [['1'], ['2'], ['3'], ['4']] →
        to_priority (some v) = 4 := by
  refine ⟨rfl, ?_⟩
  intro v h
  simp only [List.mem_cons, List.not_mem_nil, or_false, not_or] at h
  obtain ⟨h1, h2, h3, h4⟩ := h
  simp [to_priority, h1, h2, h3, h4]

/-- Claim C2 amended witness: the unrecognized input `"P9"` maps to 4. -/
theorem claim_C2_amended_witness : to_priority (some "P9") = 4 :=
  claim_C2_amended.2 "P9" (by decide)

/-- Claim C6: recognized priority inputs (optional leading `P`s,
case-insensitive, surrounding whitespace stripped) map external priority
1 to 4, 2 to 3, 3 to 2 and 4 to 1; in particular `"P1"`, `"1"` and `"p1"`
all map to 4. -/
theorem claim_C6 :
    (∀ v : String,
      (prio_canon v = ['1'] → to_priority (some v) = 4) ∧
      (prio_canon v = ['2'] → to_priority (some v) = 3) ∧
      (prio_canon v = ['3'] → to_priority (some v) = 2) ∧
      (prio_canon v = ['4'] → to_priority (some v) = 1)) ∧
    to_priority (some "P1") = 4 ∧
    to_priority (some "1") = 4 ∧
    to_priority (some "p1") = 4 := by
  refine ⟨?_, by decide, by decide, by decide⟩
  intro v
  refine ⟨fun h => ?_, fun h => ?_, fun h => ?_, fun h => ?_⟩ <;>
    simp [to_priority, h]

/-- Claim C6 witness: `"p3"` canonicalises to `"3"` and maps to 2. -/
theorem claim_C6_witness : to_priority (some "p3") = 2 :=
  ((claim_C6.1 "p3").2.2.1) (by decide)

/-- The last element of a nonempty list exists. -/
lemma lastO_cons_isSome (c : α) (l : List α) : ∃ y, lastO (c :: l) = some y := by
  induction l generalizing c with
  | nil => exact ⟨c, rfl⟩
  | cons b l ih => simpa [lastO] using ih b

/-- Overwriting semantics of the section accumulator: prepending a match is
the same as seeding the accumulator with it. -/
lemma orO_lastO_cons (a : α) (l : List α) (b : Option α) :
    orO (lastO (a :: l)) b = orO (lastO l) (some a) := by
  cases l with
  | nil => simp [lastO, orO]
  | cons c l =>
    obtain ⟨y, hy⟩ := lastO_cons_isSome c l
    simp [lastO, hy, orO]

lemma orO_none_right (a : Option α) : orO a none = a := by
  cases a <;> rfl

/-- Characterisation of the token loop of `parse_content`: labels are the
`@`-stripped tokens in order, the title parts are the tokens that are
neither labels nor section matches, and the section is the LAST matching
`/week` token (each match overwrites the accumulator). -/
lemma foldl_pcStep (toks : List (List Char)) :
    ∀ ls ts sec, toks.foldl pcStep (ls, ts, sec) =
      (ls ++ toks.filterMap labelOf,
       ts ++ toks.filter isTitleTok,
       orO (lastO (toks.filterMap secOf)) sec) := by
  induction toks with
  | nil => intro ls ts sec; simp [lastO, orO]
  | cons t toks ih =>
    intro ls ts sec
    by_cases h1 : t.head? = some '@' ∧ t.length > 1
    · have hlab : labelOf t = some (t.drop 1) := by simp [labelOf, h1]
      have htt : isTitleTok t = false := by
        simp [isTitleTok, isLabelTok, h1]
      have hsec : secOf t = none := by simp [secOf, h1.1]
      have hstep : pcStep (ls, ts, sec) t = (ls ++ [t.drop 1], ts, sec) := by
        simp [pcStep, h1]
      simp [List.foldl_cons, hstep, ih, List.filterMap_cons, hlab, hsec,
        List.filter_cons, htt]
    · by_cases h2 : t.head? = some '/'
      · cases hw : weekSecName t with
        | some nm =>
          have hlab : labelOf t = none := by simp [labelOf, h1]
          have htt : isTitleTok t = false := by
            simp [isTitleTok, isSectionTok, h2, hw]
          have hsec : secOf t = some nm := by simp [secOf, h2, hw]
          have hstep : pcStep (ls, ts, sec) t = (ls, ts, some nm) := by
            simp [pcStep, h1, h2, hw]
          simp [List.foldl_cons, hstep, ih, List.filterMap_cons, hlab, hsec,
            List.filter_cons, htt, orO_lastO_cons]
        | none =>
          have hlab : labelOf t = none := by simp [labelOf, h1]
          have htt : isTitleTok t = true := by
            simp [isTitleTok, isLabelTok, isSectionTok, h1, hw]
          have hsec : secOf t = none := by simp [secOf, h2, hw]
          have hstep : pcStep (ls, ts, sec) t = (ls, ts ++ [t], sec) := by
            simp [pcStep, h1, h2, hw]
          simp [List.foldl_cons, hstep, ih, List.filterMap_cons, hlab, hsec,
            List.filter_cons, htt]
      · have hlab : labelOf t = none := by simp [labelOf, h1]
        have htt : isTitleTok t = true := by
          simp [isTitleTok, isLabelTok, isSectionTok, h1, h2]
        have hsec : secOf t = none := by simp [secOf, h2]
        have hstep : pcStep (ls, ts, sec) t = (ls, ts ++ [t], sec) := by
          simp [pcStep, h1, h2]
        simp [List.foldl_cons, hstep, ih, List.filterMap_cons, hlab, hsec,
          List.filter_cons, htt]

/-- `chunksP` never returns an empty list of chunks. -/
lemma chunksP_ne_nil (p : Char → Bool) (l : List Char) : chunksP p l ≠ [] := by
  cases l with
  | nil => simp [chunksP]
  | cons c rest =>
    simp only [chunksP]
    by_cases hp : p c <;> simp [hp]

/-- No character of any chunk satisfies the splitting predicate. -/
lemma chunksP_chars (p : Char → Bool) (l : List Char) :
    ∀ t ∈ chunksP p l, ∀ c ∈ t, p c = false := by
  induction l with
  | nil =>
    intro t ht c hc
    simp [chunksP] at ht
    subst ht
    simp at hc
  | cons a rest ih =>
    intro t ht c hc
    simp only [chunksP] at ht
    cases hrec : chunksP p rest with
    | nil => exact absurd hrec (chunksP_ne_nil p rest)
    | cons u us =>
      rw [hrec] at ht
      by_cases hp : p a
      · rw [if_pos hp] at ht
        rcases List.mem_cons.mp ht with h | h
        · subst h; simp at hc
        · exact ih t (by rw [hrec]; exact h) c hc
      · rw [if_neg hp] at ht
        simp only [List.headI_cons, List.tail_cons] at ht
        rcases List.mem_cons.mp ht with h | h
        · subst h
          rcases List.mem_cons.mp hc with rfl | hc'
          · exact Bool.eq_false_iff.mpr hp
          · exact ih u (by rw [hrec]; exact List.mem_cons_self u us) c hc'
        · exact ih t (by rw [hrec]; exact List.mem_cons_of_mem u h) c hc

/-- Tokens produced by `str.split()` are nonempty. -/
lemma pySplit_tok_ne_nil (l : List Char) :
    ∀ t ∈ pySplitChars l, t ≠ [] := by
  intro t ht
  have := List.of_mem_filter ht
  simpa using this

/-- Tokens produced by `str.split()` contain no whitespace. -/
lemma pySplit_tok_no_ws (l : List Char) :
    ∀ t ∈ pySplitChars l, ∀ c ∈ t, wsChar c = false := by
  intro t ht
  exact chunksP_chars wsChar l t (List.mem_of_mem_filter ht)

/-- `dropWhile` is the identity when the first element (if any) fails the
predicate. -/
lemma dropWhile_eq_self_of_head (p : Char → Bool) (l : List Char)
    (h : ∀ c, l.head? = some c → p c = false) : l.dropWhile p = l := by
  cases l with
  | nil => rfl
  | cons a l => simp [List.dropWhile_cons, h a rfl]

/-- `strip` is the identity on a list whose first and last characters are
not whitespace. -/
lemma stripChars_eq_self (l : List Char)
    (h1 : ∀ c, l.head? = some c → wsChar c = false)
    (h2 : ∀ c, l.reverse.head? = some c → wsChar c = false) :
    stripChars l = l := by
  unfold stripChars
  rw [dropWhile_eq_self_of_head wsChar l h1,
    dropWhile_eq_self_of_head wsChar l.reverse h2, List.reverse_reverse]

/-- Joining nonempty tokens never yields the empty list. -/
lemma joinSpace_ne_nil (parts : List (List Char)) (hne : parts ≠ [])
    (h : ∀ t ∈ parts, t ≠ []) : joinSpace parts ≠ [] := by
  match parts with
  | [] => exact absurd rfl hne
  | [x] => exact h x (by simp)
  | x :: y :: xs =>
    have hx : x ≠ [] := h x (by simp)
    simp [joinSpace, hx]

/-- The first character of a join of nonempty whitespace-free tokens is not
whitespace. -/
lemma joinSpace_head_not_ws (parts : List (List Char))
    (h : ∀ t ∈ parts, t ≠ [] ∧ ∀ c ∈ t, wsChar c = false) :
    ∀ c, (joinSpace parts).head? = some c → wsChar c = false := by
  intro c hc
  match parts with
  | [] => simp [joinSpace] at hc
  | [x] =>
    have := (h x (by simp)).2
    exact this c (List.mem_of_mem_head? hc)
  | x :: y :: xs =>
    obtain ⟨hx, hxw⟩ := h x (by simp)
    obtain ⟨a, x', rfl⟩ : ∃ a x', x = a :: x' := by
      cases x with
      | nil => exact absurd rfl hx
      | cons a x' => exact ⟨a, x', rfl⟩
    simp only [joinSpace, List.cons_append, List.head?_cons, Option.some.injEq] at hc
    subst hc
    exact hxw _ (by simp)

/-- The last character of a join of nonempty whitespace-free tokens is not
whitespace. -/
lemma joinSpace_revhead_not_ws (parts : List (List Char))
    (h : ∀ t ∈ parts, t ≠ [] ∧ ∀ c ∈ t, wsChar c = false) :
    ∀ c, (joinSpace parts).reverse.head? = some c → wsChar c = false := by
  intro c hc
  match parts with
  | [] => simp [joinSpace] at hc
  | [x] =>
    have := (h x (by simp)).2
    exact this c (List.mem_of_mem_head? (l := x.reverse) hc |> List.mem_reverse.mp)
  | x :: y :: xs =>
    have hrest : ∀ t ∈ y :: xs, t ≠ [] ∧ ∀ c ∈ t, wsChar c = false := by
      intro t ht; exact h t (by simp [ht])
    have hjnn : joinSpace (y :: xs) ≠ [] :=
      joinSpace_ne_nil (y :: xs) (by simp) (fun t ht => (hrest t ht).1)
    have hrw : (joinSpace (x :: y :: xs)).reverse
        = ((joinSpace (y :: xs)).reverse ++ [' ']) ++ x.reverse := by
      simp [joinSpace]
    rw [hrw] at hc
    obtain ⟨a, j', hj⟩ : ∃ a j', (joinSpace (y :: xs)).reverse = a :: j' := by
      cases hj : (joinSpace (y :: xs)).reverse with
      | nil => exact absurd (by simpa using hj) hjnn
      | cons a j' => exact ⟨a, j', rfl⟩
    rw [hj] at hc
    simp only [List.cons_append, List.head?_cons, Option.some.injEq] at hc
    subst hc
    exact joinSpace_revhead_not_ws (y :: xs) hrest _ (by rw [hj]; rfl)

/-- Full characterisation of `parse_content`: the title is the
space-join of the non-label non-section tokens, the labels are the
`@`-stripped tokens in order, and the section is the last `/week` match. -/
lemma parse_content_eq (content : String) :
    parse_content content =
      (⟨joinSpace ((pySplitChars (stripChars content.data)).filter isTitleTok)⟩,
       ((pySplitChars (stripChars content.data)).filterMap labelOf).map
         (fun l => ⟨l⟩),
       (lastO ((pySplitChars (stripChars content.data)).filterMap secOf)).map
         (fun l => ⟨l⟩)) := by
  unfold parse_content
  by_cases h : stripChars content.data = []
  · rw [if_pos h, h]
    have : pySplitChars [] = [] := by rfl
    simp [this, joinSpace, lastO]
  · rw [if_neg h]
    simp only [foldl_pcStep, List.nil_append, orO_none_right]
    have hf : ∀ t ∈ (pySplitChars (stripChars content.data)).filter isTitleTok,
        t ≠ [] ∧ ∀ c ∈ t, wsChar c = false := by
      intro t ht
      have hmem := List.mem_of_mem_filter ht
      exact ⟨pySplit_tok_ne_nil _ t hmem, pySplit_tok_no_ws _ t hmem⟩
    have := stripChars_eq_self
      (joinSpace ((pySplitChars (stripChars content.data)).filter isTitleTok))
      (joinSpace_head_not_ws _ hf) (joinSpace_revhead_not_ws _ hf)
    rw [this]

/-- Claim C5: `parse_content` implements the tokenizer: split on whitespace;
`@`-tokens of length > 1 are stripped and become labels (in order); the
tokens that are neither labels nor `/week` section matches are joined with
single spaces, in their original order, to form the title; empty or
whitespace-only input yields `("", [], none)`; and the two spec examples
hold, with `"Week03"` preserving the digit padding. -/
theorem claim_C5 :
    (∀ content : String, stripChars content.data = [] →
        parse_content content = ("", [], none)) ∧
    (∀ content : String,
        (parse_content content).2.1 =
          ((pySplitChars (stripChars content.data)).filterMap labelOf).map
            (fun l => ⟨l⟩)) ∧
    (∀ content : String,
        (parse_content content).1 =
          ⟨joinSpace
            ((pySplitChars (stripChars content.data)).filter isTitleTok)⟩) ∧
    parse_content "Quiz @course @x /Week7"
      = ("Quiz", ["course", "x"], some "Week7") ∧
    parse_content "/week_03 Something @tag"
      = ("Something", ["tag"], some "Week03") := by
  refine ⟨?_, ?_, ?_, by decide, by decide⟩
  · intro content h
    simp [parse_content, h]
  · intro content
    rw [parse_content_eq]
  · intro content
    rw [parse_content_eq]

/-- Claim C5 witness: whitespace-only input yields empty title, no labels,
no section. -/
theorem claim_C5_witness : parse_content "   " = ("", [], none) :=
  claim_C5.1 "   " (by decide)

/-- Claim C1 counterexample: the claim says the FIRST matching `/week` token
sets the section; on `"A /Week1 /Week2"` the code returns `"Week2"` (the
last match), not `"Week1"`. -/
theorem claim_C1_counterexample :
    (parse_content "A /Week1 /Week2").2.2 = some "Week2" ∧
      (some "Week2" : Option String) ≠ some "Week1" :=
  ⟨by decide, by decide⟩

/-- Claim C1 (amended): when CONTENT contains several `/week` tokens, the
returned section name is the normalised form of the LAST such token (each
match overwrites the previous one), and every matching `/week` token is
consumed silently — it appears neither among the title tokens nor as a
label source. -/
theorem claim_C1_amended :
    ∀ content : String,
      (parse_content content).2.2 =
        (lastO ((pySplitChars (stripChars content.data)).filterMap secOf)).map
          (fun l => ⟨l⟩) ∧
      ∀ t ∈ pySplitChars (stripChars content.data), isSectionTok t = true →
        t ∉ (pySplitChars (stripChars content.data)).filter isTitleTok ∧
          labelOf t = none := by
  intro content
  constructor
  · rw [parse_content_eq]
  · intro t ht hsec
    constructor
    · intro hmem
      have htt := List.of_mem_filter hmem
      rw [isTitleTok, hsec] at htt
      simp at htt
    · have hhead : t.head? = some '/' := by
        have := ((Bool.and_eq_true _ _).mp hsec).1
        simpa using this
      simp [labelOf, hhead]

/-- Claim C1 amended witness: on `"A /Week1 /Week2"` the section is the last
match `"Week2"`, and the first match `"/Week1"` is absent from the title
tokens. -/
theorem claim_C1_amended_witness :
    (parse_content "A /Week1 /Week2").2.2 = some "Week2" ∧
      "/Week1".data ∉
        (pySplitChars (stripChars "A /Week1 /Week2".data)).filter isTitleTok := by
  refine ⟨?_, ?_⟩
  · rw [(claim_C1_amended "A /Week1 /Week2").1]
    decide
  · exact ((claim_C1_amended "A /Week1 /Week2").2 "/Week1".data (by decide)
      (by decide)).1

/-- Claim C3 counterexample: the claim says the labels component is a set
with no duplicates; on `"A @x @x"` the code returns the list
`["x", "x"]`, which contains a duplicate. -/
theorem claim_C3_counterexample :
    (parse_content "A @x @x").2.1 = ["x", "x"] ∧
      ¬ (parse_content "A @x @x").2.1.Nodup :=
  ⟨by decide, by decide⟩

/-- Claim C3 (amended): the labels component is a LIST that preserves the
order and multiplicity of the `@` tokens; a repeated `@tag` token yields a
repeated label (`"A @x @x"` yields `["x", "x"]`). -/
theorem claim_C3_amended :
    (∀ content : String,
      (parse_content content).2.1 =
        ((pySplitChars (stripChars content.data)).filterMap labelOf).map
          (fun l => ⟨l⟩)) ∧
    (parse_content "A @x @x").2.1 = ["x", "x"] := by
  refine ⟨?_, by decide⟩
  intro content
  rw [parse_content_eq]

/-- With an empty date string, no due value is produced whatever the time
string is. -/
lemma buildDue_no_date (time_s : String) : buildDue "" time_s = .ok none := by
  have h0 : stripChars "".data = [] := rfl
  simp [buildDue, to_iso, h0]

/-- With a nonempty date string and an empty time string, the all-day branch
fires: the (merely stripped, unvalidated) date string becomes `due_date`. -/
lemma buildDue_allday (date_s : String) (hd : date_s ≠ "") :
    buildDue date_s "" = .ok (some (.date ⟨stripChars date_s.data⟩)) := by
  have h0 : stripChars "".data = [] := rfl
  simp [buildDue, to_iso, h0, hd]

/-- With both parts present (nonblank) and the combined string well-formed,
the timed branch fires with the parsed wall-clock fields and the fixed
zone. -/
lemma buildDue_timed (date_s time_s : String) (y m d h mi : Nat)
    (hd : stripChars date_s.data ≠ []) (ht : stripChars time_s.data ≠ [])
    (hp : parseDT (stripChars date_s.data ++ ' ' :: stripChars time_s.data)
      = some (y, m, d, h, mi)) :
    buildDue date_s time_s = .ok (some (.datetime ⟨y, m, d, h, mi, LOCAL_TZ⟩)) := by
  have hts : time_s ≠ "" := by
    intro h0
    rw [h0] at ht
    exact ht rfl
  have hcond : ¬(stripChars date_s.data = [] ∨ stripChars time_s.data = []) := by
    rintro (h0 | h0)
    exacts [hd h0, ht h0]
  simp only [buildDue, to_iso, if_neg hcond, hp]
  rw [if_neg]
  rintro ⟨-, h2⟩
  exact hts h2

/-- With both parts present (nonblank) and the combined string malformed,
`strptime` raises and the error propagates out of the due construction. -/
lemma buildDue_malformed (date_s time_s : String)
    (hd : stripChars date_s.data ≠ []) (ht : stripChars time_s.data ≠ [])
    (hp : parseDT (stripChars date_s.data ++ ' ' :: stripChars time_s.data)
      = none) :
    buildDue date_s time_s
      = .error "ValueError: time data does not match format" := by
  have hcond : ¬(stripChars date_s.data = [] ∨ stripChars time_s.data = []) := by
    rintro (h0 | h0)
    exacts [hd h0, ht h0]
  simp only [buildDue, to_iso, if_neg hcond, hp]

/-- Claim C7: if the date string is empty, the payload carries no due value
regardless of the time string; if the date is present and the time empty,
it carries an all-day due date only (no time component); if both are
present and the combined string is well-formed, it carries the parsed
wall-clock fields with the fixed configured zone attached. -/
theorem claim_C7 :
    (∀ time_s : String, buildDue "" time_s = .ok none) ∧
    (∀ date_s : String, date_s ≠ "" →
        buildDue date_s "" = .ok (some (.date ⟨stripChars date_s.data⟩))) ∧
    (∀ date_s time_s : String, ∀ y m d h mi : Nat,
        stripChars date_s.data ≠ [] → stripChars time_s.data ≠ [] →
        parseDT (stripChars date_s.data ++ ' ' :: stripChars time_s.data)
          = some (y, m, d, h, mi) →
        buildDue date_s time_s
          = .ok (some (.datetime ⟨y, m, d, h, mi, LOCAL_TZ⟩))) :=
  ⟨buildDue_no_date, buildDue_allday, buildDue_timed⟩

/-- Claim C7 witness: no date yields no due; `"2024-03-01"` alone yields the
all-day date; `"2024-03-01"` + `"10:30"` yields the literal wall-clock
datetime in the configured zone. -/
theorem claim_C7_witness :
    buildDue "" "10:30" = .ok none ∧
      buildDue "2024-03-01" ""
        = .ok (some (.date ⟨stripChars "2024-03-01".data⟩)) ∧
      buildDue "2024-03-01" "10:30"
        = .ok (some (.datetime ⟨2024, 3, 1, 10, 30, LOCAL_TZ⟩)) :=
  ⟨claim_C7.1 "10:30",
   claim_C7.2.1 "2024-03-01" (by decide),
   claim_C7.2.2 "2024-03-01" "10:30" 2024 3 1 10 30 (by decide) (by decide)
     (by decide)⟩

/-- Claim C4 counterexample: the claim says a malformed date fails loudly
also in the all-day case; but with date `"garbage"` (unparseable) and no
time, the due construction succeeds and forwards `"garbage"` as the
all-day due value — no error is raised. -/
theorem claim_C4_counterexample :
    parseDate "garbage".data = none ∧
      buildDue "garbage" "" = .ok (some (.date "garbage")) :=
  ⟨by decide, by rfl⟩

/-- Claim C4 (amended): due construction fails loudly on a malformed date
or time only when BOTH strings are present (nonblank) — `strptime` then
raises and the error surfaces; when only the date is present (all-day
case), the date string is forwarded unvalidated as `due_date`, never
parsed locally. -/
theorem claim_C4_amended :
    (∀ date_s time_s : String,
        stripChars date_s.data ≠ [] → stripChars time_s.data ≠ [] →
        parseDT (stripChars date_s.data ++ ' ' :: stripChars time_s.data)
          = none →
        buildDue date_s time_s
          = .error "ValueError: time data does not match format") ∧
    (∀ date_s : String, date_s ≠ "" →
        buildDue date_s "" = .ok (some (.date ⟨stripChars date_s.data⟩))) :=
  ⟨buildDue_malformed, buildDue_allday⟩

/-- Claim C4 amended witness: month 13 with both parts present raises. -/
theorem claim_C4_amended_witness :
    buildDue "2024-13-01" "10:30"
      = .error "ValueError: time data does not match format" :=
  claim_C4_amended.1 "2024-13-01" "10:30" (by decide) (by decide) (by decide)

/-- `pickStep` always yields a file at least as new as the new candidate and
as the previous best. -/
lemma pickStep_spec (acc : Option FSFile) (c : FSFile) :
    ∃ b', pickStep acc c = some b' ∧ (b' = c ∨ acc = some b') ∧
      c.created ≤ b'.created ∧
      ∀ b, acc = some b → b.created ≤ b'.created := by
  match acc with
  | none => exact ⟨c, rfl, Or.inl rfl, Nat.le_refl _, by simp⟩
  | some b =>
    by_cases h : b.created < c.created
    · refine ⟨c, by simp [pickStep, h], Or.inl rfl, Nat.le_refl _, ?_⟩
      intro b0 hb0
      cases hb0
      exact Nat.le_of_lt h
    · refine ⟨b, by simp [pickStep, h], Or.inr rfl, Nat.le_of_not_lt h, ?_⟩
      intro b0 hb0
      cases hb0
      exact Nat.le_refl _

/-- The fold behind `pickLatest`: its result is drawn from the candidates
(or was the seed) and its creation time dominates all of them. -/
lemma pickLatest_aux (cands : List FSFile) :
    ∀ acc f, cands.foldl pickStep acc = some f →
      (acc = some f ∨ f ∈ cands) ∧
      (∀ g ∈ cands, g.created ≤ f.created) ∧
      (∀ b, acc = some b → b.created ≤ f.created) := by
  induction cands with
  | nil =>
    intro acc f h
    have h' : acc = some f := h
    refine ⟨Or.inl h', by simp, ?_⟩
    intro b hb
    rw [h'] at hb
    cases hb
    exact Nat.le_refl _
  | cons c cands ih =>
    intro acc f h
    rw [List.foldl_cons] at h
    obtain ⟨b', hstep, hb'src, hcb', haccb'⟩ := pickStep_spec acc c
    rw [hstep] at h
    obtain ⟨hsrc, hall, hseed⟩ := ih (some b') f h
    have hb'f : b'.created ≤ f.created := hseed b' rfl
    refine ⟨?_, ?_, ?_⟩
    · rcases hsrc with hsrc | hsrc
      · have hbf : b' = f := Option.some.inj hsrc
        subst hbf
        rcases hb'src with rfl | hacc
        · exact Or.inr (List.mem_cons_self _ _)
        · exact Or.inl hacc
      · exact Or.inr (List.mem_cons_of_mem c hsrc)
    · intro g hg
      rcases List.mem_cons.mp hg with rfl | hg'
      · exact Nat.le_trans hcb' hb'f
      · exact hall g hg'
    · intro b hb
      exact Nat.le_trans (haccb' b hb) hb'f

/-- Claim C8 counterexample: the claim says the extension match is
case-insensitive, but the code only globs the spellings `*.csv` and
`*.CSV`; a directory whose sole file is `data.Csv` — a CSV file
case-insensitively — produces the fatal "not found" error instead of
being selected. -/
theorem claim_C8_counterexample :
    latest_downloaded_csv (some (.dir [⟨"data.Csv", 5⟩])) []
        = .error "FileNotFoundError: No CSV files found" ∧
      List.isSuffixOf ['.', 'c', 's', 'v'] ("data.Csv".data.map Char.toLower)
        = true :=
  ⟨by rfl, by decide⟩

/-- Claim C8 (amended): an explicit file path is used as is; directory or
pooled selection returns a candidate — extension exactly `.csv` or `.CSV`,
mixed-case spellings such as `.Csv` are not matched — whose creation time
is maximal among all candidates (deterministically: the model is a pure
function, matching Python's stable sort); when no candidate exists it
fails with the fatal `FileNotFoundError`. -/
theorem claim_C8_amended :
    (∀ (n : String) (downloads : List (List FSFile)),
        latest_downloaded_csv (some (.file n)) downloads = .ok n) ∧
    (∀ (dirs : List (List FSFile)) (f : FSFile),
        latest_csv_from_dirs dirs = .ok f →
          f ∈ candidate_csvs dirs ∧
            ∀ g ∈ candidate_csvs dirs, g.created ≤ f.created) ∧
    (∀ dirs : List (List FSFile), candidate_csvs dirs = [] →
        latest_csv_from_dirs dirs
          = .error "FileNotFoundError: No CSV files found") ∧
    latest_downloaded_csv
        (some (.dir [⟨"a.csv", 1⟩, ⟨"b.csv", 2⟩, ⟨"c.csv", 3⟩])) []
      = .ok "c.csv" := by
  refine ⟨fun n downloads => rfl, ?_, ?_, by rfl⟩
  · intro dirs f h
    unfold latest_csv_from_dirs at h
    cases hp : pickLatest (candidate_csvs dirs) with
    | none => rw [hp] at h; exact absurd h (by simp)
    | some b =>
      rw [hp] at h
      have hb : b = f := by
        simpa using h
      subst hb
      obtain ⟨hsrc, hall, -⟩ := pickLatest_aux (candidate_csvs dirs) none b hp
      rcases hsrc with hsrc | hsrc
      · exact absurd hsrc (by simp)
      · exact ⟨hsrc, hall⟩
  · intro dirs h
    simp [latest_csv_from_dirs, h, pickLatest]

/-- Claim C8 amended witness: in a directory with creation times 1 < 2 < 3
the selected file is a candidate and its time 3 dominates all three. -/
theorem claim_C8_amended_witness :
    (⟨"c.csv", 3⟩ : FSFile)
        ∈ candidate_csvs [[⟨"a.csv", 1⟩, ⟨"b.csv", 2⟩, ⟨"c.csv", 3⟩]] ∧
      ∀ g ∈ candidate_csvs [[⟨"a.csv", 1⟩, ⟨"b.csv", 2⟩, ⟨"c.csv", 3⟩]],
        g.created ≤ (⟨"c.csv", 3⟩ : FSFile).created :=
  claim_C8_amended.2.1 [[⟨"a.csv", 1⟩, ⟨"b.csv", 2⟩, ⟨"c.csv", 3⟩]]
    ⟨"c.csv", 3⟩ (by rfl)

/-- The row loop counts every row, and issues a request exactly for the
rows whose parsed title is nonempty. -/
lemma processRows_aux (rows : List Row) :
    ∀ a b, rows.foldl rowStep (a, b) =
      (a + rows.length,
       b + (rows.filter
         (fun r => !((parse_content r.content).1 == ""))).length) := by
  induction rows with
  | nil => intro a b; simp
  | cons r rows ih =>
    intro a b
    rw [List.foldl_cons]
    by_cases h : (parse_content r.content).1 = ""
    · rw [show rowStep (a, b) r = (a + 1, b) from by simp [rowStep, h]]
      rw [ih]
      simp [List.filter_cons, h]
      omega
    · rw [show rowStep (a, b) r = (a + 1, b + 1) from by simp [rowStep, h]]
      rw [ih]
      simp [List.filter_cons, h]
      omega

/-- Claim C10: the reported count equals the number of CSV rows read —
including rows skipped for an empty title — while a request is issued only
for rows with a nonempty parsed title; on a CSV with one real row and one
empty-CONTENT row the reported count (2) exceeds the requests issued
(1). -/
theorem claim_C10 :
    (∀ rows : List Row, (processRows rows).1 = rows.length) ∧
    (∀ rows : List Row, (processRows rows).2 =
        (rows.filter
          (fun r => !((parse_content r.content).1 == ""))).length) ∧
    (processRows [⟨"Quiz @x", "", "", none, ""⟩, ⟨"", "", "", none, ""⟩]).1
        = 2 ∧
    (processRows [⟨"Quiz @x", "", "", none, ""⟩, ⟨"", "", "", none, ""⟩]).2
        = 1 ∧
    (processRows [⟨"Quiz @x", "", "", none, ""⟩, ⟨"", "", "", none, ""⟩]).2
      < (processRows [⟨"Quiz @x", "", "", none, ""⟩, ⟨"", "", "", none, ""⟩]).1 := by
  refine ⟨?_, ?_, by decide, by decide, by decide⟩
  · intro rows
    unfold processRows
    rw [processRows_aux rows 0 0]
    simp
  · intro rows
    unfold processRows
    rw [processRows_aux rows 0 0]
    simp

/-- Claim C9: `to_priority` is total — for every input (missing value or
arbitrary string) it returns one of the numeric priorities 1..4 and never
fails. -/
theorem claim_C9 :
    ∀ val : Option String,
      to_priority val = 4 ∨ to_priority val = 3 ∨
      to_priority val = 2 ∨ to_priority val = 1 := by
  intro val
  match val with
  | none => exact Or.inl rfl
  | some v =>
    simp only [to_priority]
    split
    · exact Or.inl rfl
    · split
      · exact Or.inr (Or.inl rfl)
      · split
        · exact Or.inr (Or.inr (Or.inl rfl))
        · split
          · exact Or.inr (Or.inr (Or.inr rfl))
          · exact Or.inl rfl

end TodoistAdd
